import Mathlib

/-!
# Verification of the `BlockMove` event (Blockly event model)

Shallow embedding of `src/core/events/events.ts` (class `BlockMove`), together
with the parts of the collaborating document model that the event code calls
into (`Block`, `Workspace`, `Coordinate`), which are not part of the source
under verification and are therefore modelled from the specification's
collaborator interface (§6 of the spec: `getEntityById`, `getParentOf`,
`connect`, `disconnect`, `setPosition`).

JavaScript numbers are modelled as rationals (`ℚ`); `Math.round` is
`⌊q + 1/2⌋` (round half toward +∞), which agrees with JS on all rationals.
A JS object with optional fields is modelled as a structure of `Option`s;
assigning `undefined` to a key is modelled as `none` (indistinguishable from
an absent key through the JSON serialization interface).
-/

attribute [local semireducible] Rat.add Rat.sub Rat.mul Rat.inv

namespace BlocklyEvents

/-- Modelled from the spec: a workspace coordinate, the `Coordinate` utility
class (`core/utils/coordinate.js`, not under `src/`).  JS numbers are
modelled as rationals. -/
structure Coordinate where
  x : ℚ
  y : ℚ
deriving DecidableEq, Repr

/-- Modelled from the spec: `Coordinate.equals(a, b)` with `undefined`
allowed on either side — `a === b` makes two `undefined`s equal, a defined
and an undefined coordinate are unequal, and two defined coordinates are
compared componentwise. -/
def coordinateEquals : Option Coordinate → Option Coordinate → Bool
  | none, none => true
  | some a, some b => a == b
  | _, _ => false

/-- Which of the moved block's own connections is used to attach it to a
parent: its output connection or its previous-statement connection. -/
inductive ConnSide where
  | output
  | previous
deriving DecidableEq, Repr

/-- The connection types from `core/connection_type.ts` that the `run`
method inspects. -/
inductive ConnectionType where
  | INPUT_VALUE
  | OUTPUT_VALUE
  | NEXT_STATEMENT
  | PREVIOUS_STATEMENT
deriving DecidableEq, Repr

/-- The `type` of the block-side connection: an output connection has type
`OUTPUT_VALUE`, a previous connection has type `PREVIOUS_STATEMENT`. -/
def connType : ConnSide → ConnectionType
  | .output => .OUTPUT_VALUE
  | .previous => .PREVIOUS_STATEMENT

/-- The parent-side point a block is attached at: a named input of the
parent, or the parent's next connection. -/
inductive AttachPoint where
  | input (name : String)
  | next
deriving DecidableEq, Repr

/-- Modelled from the spec: a live parent link, the `connect`ed state of a
block.  Records the parent entity id, the parent-side point, and which of
the block's own connections carries the link. -/
structure Attachment where
  parentId : String
  point : AttachPoint
  via : ConnSide
deriving DecidableEq, Repr

/-- Modelled from the spec: the live document's block entity, restricted to
what the event code observes and mutates.  `hasOutput` / `hasPrevious` /
`hasNext` record which connections the block owns; `inputs` is the list of
its named inputs (each carrying a connection); `attachment` is the live
parent link (`none` for a top-level block); `coordinate` is the block's own
workspace position, meaningful while the block is top-level
(`getRelativeToSurfaceXY` of a top-level block). -/
structure Block where
  id : String
  hasOutput : Bool
  hasPrevious : Bool
  hasNext : Bool
  inputs : List String
  isShadow : Bool
  attachment : Option Attachment
  coordinate : Coordinate
deriving DecidableEq, Repr

/-- Modelled from the spec: the live document, a collection of block
entities addressable by id. -/
structure Workspace where
  blocks : List Block
deriving DecidableEq, Repr

/-- Modelled from the spec: `workspace.getBlockById(id)`. -/
def Workspace.getBlockById (ws : Workspace) (id : String) : Option Block :=
  ws.blocks.find? (fun b => b.id == id)

/-- Replace the block with the same id by `b` (the in-place mutation of a
block object, reflected back into the workspace map). -/
def Workspace.setBlock (ws : Workspace) (b : Block) : Workspace :=
  ⟨ws.blocks.map (fun x => if x.id == b.id then b else x)⟩

/-- Modelled from the spec: `block.getParent()` is truthy exactly when the
block is connected to a parent. -/
def Block.hasParent (b : Block) : Bool :=
  b.attachment.isSome

/-- Modelled from the spec: `block.unplug()` — disconnect the block from
its parent (the spec's `disconnect` primitive).  The block's other state is
untouched. -/
def Block.unplug (b : Block) : Block :=
  { b with attachment := none }

/-- `if (block.getParent()) { block.unplug(); }` (events.ts lines
418–420). -/
def Block.unplugIf (b : Block) : Block :=
  if b.hasParent then b.unplug else b

/-- Modelled from the spec: `block.moveBy(dx, dy)` — translate a top-level
block by a relative offset (the spec's `setPosition` primitive). -/
def Block.moveBy (b : Block) (dx dy : ℚ) : Block :=
  { b with coordinate := ⟨b.coordinate.x + dx, b.coordinate.y + dy⟩ }

/-- Modelled from the spec: `block.previousConnection.isConnected()` — the
block's previous connection exists and currently carries the parent link. -/
def Block.prevConnected (b : Block) : Bool :=
  b.hasPrevious && (match b.attachment with
    | some a => a.via == .previous
    | none => false)

/-- Modelled from the spec: `parentBlock.getInput(name)` — the named input,
when the parent has one. -/
def Block.getInput (b : Block) (name : String) : Option String :=
  b.inputs.find? (fun n => n == name)

/-- Modelled from the spec: `parent.getInputWithBlock(block)` — the
parent's input whose connection targets `block`, i.e. the named input the
child's live parent link goes through (`none` when the child hangs off the
parent's next connection). -/
def Block.getInputWithBlock (parent child : Block) : Option String :=
  match child.attachment with
  | some a =>
      if a.parentId == parent.id then
        match a.point with
        | .input n => some n
        | .next => none
      else none
  | none => none

/-- The location-state record built by `BlockMove.prototype.currentLocation_`
(interface `BlockLocation`, events.ts lines 191–195). -/
structure BlockLocation where
  parentId : Option String
  inputName : Option String
  coordinate : Option Coordinate
deriving DecidableEq, Repr

/-- `BlockMove.prototype.currentLocation_` (events.ts lines 352–377),
applied to the resolved block: if the block has a parent, record the
parent's id and (when the block sits in a named input) the input's name;
otherwise record the block's `getRelativeToSurfaceXY()` coordinate. -/
def currentLocationOf (ws : Workspace) (b : Block) : BlockLocation :=
  match b.attachment with
  | some a =>
      { parentId := some a.parentId
        inputName :=
          match ws.getBlockById a.parentId with
          | some parent => Block.getInputWithBlock parent b
          | none => none
        coordinate := none }
  | none =>
      { parentId := none, inputName := none, coordinate := some b.coordinate }

/-- JS truthiness of an optional string: `undefined` and the empty string
are falsy. -/
def strFalsy : Option String → Bool
  | none => true
  | some s => s == ""

/-- The text JS string-concatenation produces for an optional string:
`"undefined"` when the value is absent. -/
def showOptString : Option String → String
  | none => "undefined"
  | some s => s

/-- `currentLocation_` as called through the workspace: looks the block up
by id, throwing (modelled as `Except.error`) when the id is falsy
(`if (!this.blockId)`) or does not resolve (events.ts lines 352–364). -/
def currentLocation (ws : Workspace) (blockId : Option String) :
    Except String BlockLocation :=
  if strFalsy blockId then
    .error "The block ID is undefined. Either pass a block to the constructor, or call fromJson"
  else
    match ws.getBlockById (blockId.getD "") with
    | none => .error "The block associated with the block move event could not be found"
    | some b => .ok (currentLocationOf ws b)

/-- The `BlockMove` event object: the fields of class `BlockMove`
(events.ts lines 203–234) together with the inherited `blockId`, `group`
and `recordUndo` fields of `BlockBase` / `Abstract`. -/
structure BlockMove where
  blockId : Option String
  group : String
  recordUndo : Bool
  oldParentId : Option String
  oldInputName : Option String
  oldCoordinate : Option Coordinate
  newParentId : Option String
  newInputName : Option String
  newCoordinate : Option Coordinate
deriving DecidableEq, Repr

namespace BlockMove

/-- The `BlockMove` constructor on a present block (events.ts lines
237–253).  `defaultRecordUndo` is the inherited default captured by the
`Abstract` base constructor (modelled from the spec: the process-wide
`recordUndo` flag), `groupCtx` the current group context.  A shadow block
forces `recordUndo := false`; the old half is captured from
`currentLocation_()`. -/
def mk' (ws : Workspace) (b : Block) (defaultRecordUndo : Bool)
    (groupCtx : String) : Except String BlockMove :=
  match currentLocation ws (some b.id) with
  | .error msg => .error msg
  | .ok location =>
      .ok
        { blockId := some b.id
          group := groupCtx
          recordUndo := if b.isShadow then false else defaultRecordUndo
          oldParentId := location.parentId
          oldInputName := location.inputName
          oldCoordinate := location.coordinate
          newParentId := none
          newInputName := none
          newCoordinate := none }

/-- The blank `BlockMove` constructor (`new BlockMove()`, to be populated
by `fromJson`; events.ts lines 240–242). -/
def blank (defaultRecordUndo : Bool) (groupCtx : String) : BlockMove :=
  { blockId := none
    group := groupCtx
    recordUndo := defaultRecordUndo
    oldParentId := none
    oldInputName := none
    oldCoordinate := none
    newParentId := none
    newInputName := none
    newCoordinate := none }

/-- `BlockMove.prototype.recordNew` (events.ts lines 339–344): capture the
new half from `currentLocation_()`. -/
def recordNew (e : BlockMove) (ws : Workspace) : Except String BlockMove :=
  match currentLocation ws e.blockId with
  | .error msg => .error msg
  | .ok location =>
      .ok
        { e with
          newParentId := location.parentId
          newInputName := location.inputName
          newCoordinate := location.coordinate }

/-- `BlockMove.prototype.isNull` (events.ts lines 384–388). -/
def isNull (e : BlockMove) : Bool :=
  e.oldParentId == e.newParentId && e.oldInputName == e.newInputName &&
    coordinateEquals e.oldCoordinate e.newCoordinate

end BlockMove

/-! ## The `run` method -/

/-- Modelled from the spec: `blockConnection.connect(parentConnection)` —
the spec's `connect` primitive: attach the block to the parent at the given
point, through the given block-side connection. -/
def Block.connectTo (b : Block) (side : ConnSide) (parentId : String)
    (point : AttachPoint) : Block :=
  { b with attachment := some ⟨parentId, point, side⟩ }

/-- The block-side connection chosen by `run` (events.ts lines 425–429):
start from the output connection; fall back to the previous connection when
there is no output connection, or when the previous connection exists and
is currently connected. -/
def blockConnectionOf (b : Block) : Option ConnSide :=
  if !b.hasOutput || b.prevConnected then
    if b.hasPrevious then some ConnSide.previous else none
  else
    some ConnSide.output

/-- The parent-side connection chosen by `run` (events.ts lines 430–439):
a truthy `inputName` selects the named input's connection on the resolved
parent (`none` when the parent has no such input); otherwise, when the
block-side connection is a previous-statement connection, the parent's next
connection is selected (`none` when the parent has no next connection).
Dereferencing an unresolved parent (`parentBlock!`) throws. -/
def parentConnectionOf (parentBlock : Option Block) (inputName : Option String)
    (connectionType : ConnectionType) : Except String (Option (String × AttachPoint)) :=
  if strFalsy inputName then
    if connectionType == ConnectionType.PREVIOUS_STATEMENT then
      match parentBlock with
      | none => .error "TypeError: parentBlock is undefined"
      | some pb => .ok (if pb.hasNext then some (pb.id, AttachPoint.next) else none)
    else .ok none
  else
    match parentBlock with
    | none => .error "TypeError: parentBlock is undefined"
    | some pb =>
        match pb.getInput (inputName.getD "") with
        | some _ => .ok (some (pb.id, AttachPoint.input (inputName.getD "")))
        | none => .ok none

/-- The tail of `run` after id resolution (events.ts lines 418–445): unplug
the block if it has a parent, then either translate it to the target
coordinate (`getRelativeToSurfaceXY` of the now top-level block is its own
coordinate) or reconnect it through the chosen block-side and parent-side
connections, warning when no parent-side connection applies. -/
def runMove (ws : Workspace) (block : Block) (parentBlock : Option Block)
    (inputName : Option String) (coordinate : Option Coordinate) :
    Except String (Workspace × List String) :=
  let block := block.unplugIf
  match coordinate with
  | some c =>
      .ok (ws.setBlock (block.moveBy (c.x - block.coordinate.x) (c.y - block.coordinate.y)), [])
  | none =>
      match blockConnectionOf block with
      | none => .error "TypeError: blockConnection is null"
      | some side =>
          match parentConnectionOf parentBlock inputName (connType side) with
          | .error msg => .error msg
          | .ok (some (pid, pt)) => .ok (ws.setBlock (block.connectTo side pid pt), [])
          | .ok none =>
              .ok (ws.setBlock block,
                ["Can't connect to non-existent input: " ++ showOptString inputName])

/-- `BlockMove.prototype.run` (events.ts lines 395–446).  Returns the
updated workspace and the `console.warn` messages emitted; a thrown
exception is modelled as `Except.error`.  The direction selects the new
(forward) or old (backward) half; a missing block or missing target parent
warns and leaves the document untouched. -/
def BlockMove.run (e : BlockMove) (forward : Bool) (ws : Workspace) :
    Except String (Workspace × List String) :=
  if strFalsy e.blockId then
    .error "The block ID is undefined. Either pass a block to the constructor, or call fromJson"
  else
    match ws.getBlockById (e.blockId.getD "") with
    | none => .ok (ws, ["Can't move non-existent block: " ++ e.blockId.getD ""])
    | some block =>
        let parentId := if forward then e.newParentId else e.oldParentId
        let inputName := if forward then e.newInputName else e.oldInputName
        let coordinate := if forward then e.newCoordinate else e.oldCoordinate
        if strFalsy parentId then
          runMove ws block none inputName coordinate
        else
          match ws.getBlockById (parentId.getD "") with
          | none => .ok (ws, ["Can't connect to non-existent block: " ++ parentId.getD ""])
          | some parentBlock => runMove ws block (some parentBlock) inputName coordinate

/-! ## Decimal rendering and parsing of coordinates

`toJson` renders each coordinate component with `Math.round` and a JS
template literal; `fromJson` splits the stored string on `','` and converts
each part with `Number`. -/

/-- JS `Math.round`: round half toward +∞, `⌊q + 1/2⌋`. -/
def jsRound (q : ℚ) : ℤ := ⌊q + 1 / 2⌋

/-- The decimal digit character for `d` (`0 ≤ d ≤ 9`). -/
def digitChar (d : ℕ) : Char := Char.ofNat (48 + d)

/-- The big-endian decimal digit characters of `n` (empty for `0`). -/
def natDigitChars (n : ℕ) : List Char :=
  ((Nat.digits 10 n).map digitChar).reverse

/-- Modelled from the spec: the JS rendering of a nonnegative integer-valued
number (template literal `${n}`): its standard decimal numeral. -/
def natToString (n : ℕ) : String :=
  ⟨if n = 0 then ['0'] else natDigitChars n⟩

/-- Modelled from the spec: the JS rendering of an integer-valued number:
a minus sign (for negative values) followed by the decimal numeral. -/
def intToString (i : ℤ) : String :=
  if i < 0 then "-" ++ natToString i.natAbs else natToString i.natAbs

/-- The coordinate string written by `toJson` (events.ts lines 264–267 and
270–273): `round(x)`, comma, space, `round(y)`. -/
def encodeCoordinate (c : Coordinate) : String :=
  intToString (jsRound c.x) ++ ", " ++ intToString (jsRound c.y)

/-- The numeric value of a decimal digit character, if it is one. -/
def digitVal? (c : Char) : Option ℕ :=
  if '0' ≤ c ∧ c ≤ '9' then some (c.toNat - 48) else none

/-- Accumulating decimal parse of a big-endian digit-character list. -/
def parseDigitsAux : ℕ → List Char → Option ℕ
  | acc, [] => some acc
  | acc, c :: cs =>
      match digitVal? c with
      | some d => parseDigitsAux (acc * 10 + d) cs
      | none => none

/-- Parse a nonempty all-digit character list as a natural number. -/
def parseDigits (cs : List Char) : Option ℕ :=
  if cs.isEmpty then none else parseDigitsAux 0 cs

/-- Strip leading and trailing spaces. -/
def trimSpaces (cs : List Char) : List Char :=
  (((cs.dropWhile (· == ' ')).reverse.dropWhile (· == ' ')).reverse)

/-- Modelled from the spec: the JS `Number(string)` conversion restricted to
the forms the coordinate encoding produces — an optionally negated decimal
numeral surrounded by spaces.  A whitespace-only string converts to 0;
strings outside this fragment convert to NaN, modelled as `none`. -/
def jsNumber (cs : List Char) : Option ℚ :=
  let t := trimSpaces cs
  if t.isEmpty then some 0
  else if t.head? == some '-' then
    (parseDigits t.tail).map (fun n : ℕ => -(n : ℚ))
  else (parseDigits t).map (fun n : ℕ => (n : ℚ))

/-- JS `String.prototype.split` on a single-character separator. -/
def splitOnChar (sep : Char) : List Char → List (List Char)
  | [] => [[]]
  | c :: cs =>
      if c == sep then [] :: splitOnChar sep cs
      else
        match splitOnChar sep cs with
        | h :: t => (c :: h) :: t
        | [] => [[c]]

theorem splitOnChar_cons (sep c : Char) (L : List Char) :
    splitOnChar sep (c :: L) =
      (if c == sep then [] :: splitOnChar sep L
       else
         match splitOnChar sep L with
         | h :: t => (c :: h) :: t
         | [] => [[c]]) := rfl

/-- The coordinate parse performed by `fromJson` (events.ts lines 292–295
etc.): split on `','` and convert parts 0 and 1 with `Number`.  An index
past the end of the split (JS `undefined`) or a NaN conversion yields a
coordinate that no claim exercises; both are modelled as `none`. -/
def decodeCoordinate (s : String) : Option Coordinate :=
  let xy := splitOnChar ',' s.data
  match xy[0]? with
  | none => none
  | some a =>
      match xy[1]? with
      | none => none
      | some b =>
          match jsNumber a, jsNumber b with
          | some x, some y => some ⟨x, y⟩
          | _, _ => none

/-- The guarded coordinate read of `fromJson`
(`if (json['oldCoordinate']) { ... split ... }`): an absent or empty
(falsy) string leaves the field unset. -/
def decodeCoordinateField : Option String → Option Coordinate
  | none => none
  | some s => if s == "" then none else decodeCoordinate s

/-! ## JSON serialization -/

/-- The serialized form `BlockMoveJson` (events.ts lines 449–457) together
with the inherited `type` and `group` keys.  A JS object field holding
`undefined` is modelled as `none`. -/
structure BlockMoveJson where
  type : String
  group : Option String
  blockId : Option String
  oldParentId : Option String
  oldInputName : Option String
  oldCoordinate : Option String
  newParentId : Option String
  newInputName : Option String
  newCoordinate : Option String
  recordUndo : Option Bool
deriving DecidableEq, Repr

namespace BlockMove

/-- Modelled from the spec: `Abstract.prototype.toJson` and
`BlockBase.prototype.toJson` (not under src/) — a keyed structure with the
kind tag `type`, the `group` when non-empty, and the `blockId`. -/
def baseToJson (e : BlockMove) : BlockMoveJson :=
  { type := "move"
    group := if e.group == "" then none else some e.group
    blockId := e.blockId
    oldParentId := none
    oldInputName := none
    oldCoordinate := none
    newParentId := none
    newInputName := none
    newCoordinate := none
    recordUndo := none }

/-- `BlockMove.prototype.toJson` (events.ts lines 260–278): copy the
parent/input ids verbatim (`undefined` included), write each defined
coordinate as its rounded `"x, y"` string, and write `recordUndo` only when
it is false. -/
def toJson (e : BlockMove) : BlockMoveJson :=
  { baseToJson e with
    oldParentId := e.oldParentId
    oldInputName := e.oldInputName
    oldCoordinate := e.oldCoordinate.map encodeCoordinate
    newParentId := e.newParentId
    newInputName := e.newInputName
    newCoordinate := e.newCoordinate.map encodeCoordinate
    recordUndo := if !e.recordUndo then some e.recordUndo else none }

/-- The static `BlockMove.fromJson` (events.ts lines 316–336), on a fresh
blank event (`event ?? new BlockMove()`).  The superclass part (not under
src/) is modelled from the spec: it populates `group` and `blockId` from
the serialized form; `defaultRecordUndo` and `groupCtx` are the process-wide
defaults the blank constructor captures.  `recordUndo` is overwritten only
when the key is present. -/
def fromJson (json : BlockMoveJson) (defaultRecordUndo : Bool)
    (groupCtx : String) : BlockMove :=
  let newEvent := blank defaultRecordUndo groupCtx
  let newEvent := { newEvent with group := json.group.getD "", blockId := json.blockId }
  { newEvent with
    oldParentId := json.oldParentId
    oldInputName := json.oldInputName
    oldCoordinate := decodeCoordinateField json.oldCoordinate
    newParentId := json.newParentId
    newInputName := json.newInputName
    newCoordinate := decodeCoordinateField json.newCoordinate
    recordUndo :=
      match json.recordUndo with
      | some r => r
      | none => newEvent.recordUndo }

end BlockMove

/-! ## Helper lemmas -/

theorem coordinateEquals_eq_true_iff (a b : Option Coordinate) :
    coordinateEquals a b = true ↔ a = b := by
  cases a <;> cases b <;> simp [coordinateEquals]

theorem getBlockById_id (ws : Workspace) (bid : String) (b : Block)
    (h : ws.getBlockById bid = some b) : b.id = bid := by
  have := List.find?_some h
  simpa using this

theorem currentLocation_ok (ws : Workspace) (obid : Option String)
    (L : BlockLocation) (h : currentLocation ws obid = .ok L) :
    ∃ bid b, obid = some bid ∧ ws.getBlockById bid = some b ∧
      L = currentLocationOf ws b := by
  unfold currentLocation at h
  by_cases hf : strFalsy obid = true
  · rw [if_pos hf] at h
    exact absurd h (by simp)
  · rw [if_neg hf] at h
    cases obid with
    | none => simp [strFalsy] at hf
    | some bid =>
        cases hb : ws.getBlockById bid with
        | none => rw [show (some bid).getD "" = bid from rfl, hb] at h; simp at h
        | some b =>
            rw [show (some bid).getD "" = bid from rfl, hb] at h
            refine ⟨bid, b, rfl, hb, ?_⟩
            injection h with h
            exact h.symm

instance exceptDecidableEq {ε α : Type} [DecidableEq ε] [DecidableEq α] :
    DecidableEq (Except ε α) := fun x y =>
  match x, y with
  | .error a, .error b =>
      if h : a = b then isTrue (by rw [h])
      else isFalse (fun hh => h (by injection hh))
  | .ok a, .ok b =>
      if h : a = b then isTrue (by rw [h])
      else isFalse (fun hh => h (by injection hh))
  | .error _, .ok _ => isFalse (fun hh => Except.noConfusion hh)
  | .ok _, .error _ => isFalse (fun hh => Except.noConfusion hh)

/-! ## Fixtures for witnesses and counterexamples -/

/-- A free-floating block with no connections. -/
def bPlain : Block :=
  { id := "b", hasOutput := false, hasPrevious := false, hasNext := false,
    inputs := [], isShadow := false, attachment := none, coordinate := ⟨0, 0⟩ }

/-- A free-floating shadow block. -/
def bShadow : Block :=
  { id := "s", hasOutput := true, hasPrevious := false, hasNext := false,
    inputs := [], isShadow := true, attachment := none, coordinate := ⟨1, 2⟩ }

/-- A block owning both an output and a previous connection. -/
def bBothConn : Block :=
  { id := "bb", hasOutput := true, hasPrevious := true, hasNext := false,
    inputs := [], isShadow := false, attachment := none, coordinate := ⟨0, 0⟩ }

/-- A potential parent with a next connection and one named input. -/
def pParent : Block :=
  { id := "pp", hasOutput := false, hasPrevious := false, hasNext := true,
    inputs := ["IN"], isShadow := false, attachment := none, coordinate := ⟨9, 9⟩ }

def wsEmpty : Workspace := ⟨[]⟩

def wsShadow : Workspace := ⟨[bShadow]⟩

def wsBoth : Workspace := ⟨[bBothConn, pParent]⟩

/-- A move of `bBothConn` under `pParent`, as the parent's next block. -/
def eBoth : BlockMove :=
  { blockId := some "bb", group := "", recordUndo := true,
    oldParentId := none, oldInputName := none, oldCoordinate := some ⟨0, 0⟩,
    newParentId := some "pp", newInputName := none, newCoordinate := none }

/-- An event naming a block id that exists in no workspace. -/
def eMissing : BlockMove :=
  { blockId := some "zz", group := "", recordUndo := true,
    oldParentId := none, oldInputName := none, oldCoordinate := some ⟨0, 0⟩,
    newParentId := none, newInputName := none, newCoordinate := some ⟨1, 1⟩ }

/-- A null move: old and new halves agree. -/
def eNullEx : BlockMove :=
  { blockId := some "b", group := "", recordUndo := true,
    oldParentId := none, oldInputName := none, oldCoordinate := some ⟨10, 10⟩,
    newParentId := none, newInputName := none, newCoordinate := some ⟨10, 10⟩ }

/-! ## C3: isNull -/

/-- C3: For every BlockMove event, `isNull()` is true iff the old and new
parent ids, the old and new input names, and the old and new coordinates
are pairwise equal, `undefined` counting as equal to `undefined`; e.g. old
coordinate (10,10) versus new coordinate (10,10), parents and inputs
agreeing, is null, while (10,10) versus (10,11) is not. -/
theorem blockMove_isNull_iff (e : BlockMove) :
    (e.isNull = true ↔
      e.oldParentId = e.newParentId ∧ e.oldInputName = e.newInputName ∧
        e.oldCoordinate = e.newCoordinate) ∧
    (e.oldParentId = e.newParentId → e.oldInputName = e.newInputName →
      e.oldCoordinate = some ⟨10, 10⟩ → e.newCoordinate = some ⟨10, 10⟩ →
      e.isNull = true) ∧
    (e.oldCoordinate = some ⟨10, 10⟩ → e.newCoordinate = some ⟨10, 11⟩ →
      e.isNull = false) := by
  refine ⟨?_, ?_, ?_⟩
  · simp [BlockMove.isNull, coordinateEquals_eq_true_iff, and_assoc]
  · intro h1 h2 h3 h4
    simp [BlockMove.isNull, coordinateEquals_eq_true_iff, h1, h2, h3, h4]
  · intro h3 h4
    have hne : coordinateEquals e.oldCoordinate e.newCoordinate = false := by
      rw [h3, h4]; decide
    simp [BlockMove.isNull, hne]

/-- Witness for C3 at a concrete event. -/
theorem blockMove_isNull_iff_witness : eNullEx.isNull = true :=
  (blockMove_isNull_iff eNullEx).2.1 rfl rfl rfl rfl

/-! ## C8: toJson keeps exactly the defined optional fields -/

/-- C8: `toJson()` copies each parent id and input name verbatim (so an
undefined one is absent from the keyed structure and a defined one is
present), writes a coordinate key exactly when the coordinate is defined,
and writes `recordUndo` exactly when it is false. -/
theorem blockMove_toJson_omits_undefined (e : BlockMove) :
    e.toJson.oldParentId = e.oldParentId ∧
    e.toJson.oldInputName = e.oldInputName ∧
    e.toJson.oldCoordinate.isSome = e.oldCoordinate.isSome ∧
    e.toJson.newParentId = e.newParentId ∧
    e.toJson.newInputName = e.newInputName ∧
    e.toJson.newCoordinate.isSome = e.newCoordinate.isSome ∧
    e.toJson.recordUndo = (if e.recordUndo then none else some false) := by
  refine ⟨rfl, rfl, ?_, rfl, rfl, ?_, ?_⟩
  · simp [BlockMove.toJson, BlockMove.baseToJson]
  · simp [BlockMove.toJson, BlockMove.baseToJson]
  · cases hr : e.recordUndo <;> simp [BlockMove.toJson, BlockMove.baseToJson, hr]

/-! ## C10: shadow blocks are never recorded on the undo stack -/

/-- C10: a BlockMove constructed from a shadow block has `recordUndo`
forced to false, while a non-shadow block keeps the inherited default. -/
theorem blockMove_constructor_shadow (ws : Workspace) (b : Block) (dru : Bool)
    (g : String) (e : BlockMove) (h : BlockMove.mk' ws b dru g = .ok e) :
    (b.isShadow = true → e.recordUndo = false) ∧
    (b.isShadow = false → e.recordUndo = dru) := by
  unfold BlockMove.mk' at h
  cases hc : currentLocation ws (some b.id) with
  | error msg => rw [hc] at h; simp at h
  | ok L =>
      rw [hc] at h
      injection h with h
      subst h
      constructor
      · intro hs; simp [hs]
      · intro hs; simp [hs]

/-- The event the constructor produces for the shadow fixture. -/
def eShadowRes : BlockMove :=
  { blockId := some "s", group := "", recordUndo := false,
    oldParentId := none, oldInputName := none, oldCoordinate := some ⟨1, 2⟩,
    newParentId := none, newInputName := none, newCoordinate := none }

/-- Witness for C10: the shadow fixture yields `recordUndo = false` even
with the inherited default true. -/
theorem blockMove_constructor_shadow_witness :
    BlockMove.mk' wsShadow bShadow true "" = .ok eShadowRes ∧
    eShadowRes.recordUndo = false :=
  ⟨by decide,
    (blockMove_constructor_shadow wsShadow bShadow true "" eShadowRes
      (by decide)).1 rfl⟩

/-! ## C4: missing references warn and leave the document untouched -/

/-- C4: when the moved block's id does not resolve, or the target parent id
does not resolve, `run` returns the workspace unchanged together with a
warning, instead of throwing. -/
theorem blockMove_run_missing_noop (e : BlockMove) (fwd : Bool) (ws : Workspace)
    (bid : String) (hbid : e.blockId = some bid) (hne : bid ≠ "") :
    (ws.getBlockById bid = none →
      e.run fwd ws = .ok (ws, ["Can't move non-existent block: " ++ bid])) ∧
    (∀ b pid, ws.getBlockById bid = some b → pid ≠ "" →
      (if fwd then e.newParentId else e.oldParentId) = some pid →
      ws.getBlockById pid = none →
      e.run fwd ws = .ok (ws, ["Can't connect to non-existent block: " ++ pid])) := by
  have hsf : strFalsy e.blockId = false := by rw [hbid]; simp [strFalsy, hne]
  constructor
  · intro hnone
    rw [BlockMove.run, hsf]
    simp [hbid, hnone]
  · intro b pid hb hpne hpid hpnone
    rw [BlockMove.run, hsf]
    simp only [Bool.false_eq_true, if_false, hbid, Option.getD_some, hb]
    rw [hpid]
    simp [strFalsy, hpne, hpnone]

/-- Witness for C4: running a move whose block id resolves nowhere is a
warning no-op. -/
theorem blockMove_run_missing_noop_witness :
    eMissing.run true wsEmpty =
      .ok (wsEmpty, ["Can't move non-existent block: zz"]) :=
  (blockMove_run_missing_noop eMissing true wsEmpty "zz" rfl (by decide)).1 rfl

/-! ## C5: block-side connection choice -/

/-- Helper: the block-side connection choice for a block whose previous
connection carries no link (the state of every block at the reconnection
point of `run`, which unplugs first). -/
theorem blockConnectionOf_unplugged (b : Block) (h : b.attachment = none) :
    blockConnectionOf b =
      (if b.hasOutput then some ConnSide.output
       else if b.hasPrevious then some ConnSide.previous else none) := by
  have hpc : b.prevConnected = false := by
    simp [Block.prevConnected, h]
  cases ho : b.hasOutput <;> simp [blockConnectionOf, hpc, ho]

/-- C5 (amended): at reconnection time the block has just been unplugged,
so its previous connection is not connected and the output connection is
preferred whenever it exists; the previous-statement connection is the
reconnection point only when the block has no output connection. -/
theorem blockMove_blockConnection_choice (b : Block) (h : b.attachment = none) :
    blockConnectionOf b =
      (if b.hasOutput then some ConnSide.output
       else if b.hasPrevious then some ConnSide.previous else none) :=
  blockConnectionOf_unplugged b h

/-- Witness for C5's amended theorem at the both-connections fixture. -/
theorem blockMove_blockConnection_choice_witness :
    blockConnectionOf bBothConn = some ConnSide.output := by
  rw [blockMove_blockConnection_choice bBothConn rfl]
  decide

/-- C5 counterexample: a block owning both an output and a previous
connection is reconnected through its output connection, not its
previous-statement connection — so a move under a parent with only a next
connection warns and leaves the block unattached instead of connecting. -/
theorem blockMove_blockConnection_counterexample :
    bBothConn.hasOutput = true ∧ bBothConn.hasPrevious = true ∧
    blockConnectionOf bBothConn = some ConnSide.output ∧
    blockConnectionOf bBothConn ≠ some ConnSide.previous ∧
    eBoth.run true wsBoth =
      .ok (wsBoth, ["Can't connect to non-existent input: undefined"]) :=
  ⟨rfl, rfl, rfl, by decide, rfl⟩

/-! ## C6: parent-side connection choice -/

/-- C6: a truthy input name always selects the named input's connection on
the parent, whatever the block-side connection type and whether the parent
has a next connection; the parent's next connection is selected only when
no input name is given and the block-side connection is a
previous-statement connection. -/
theorem blockMove_parentConnection_choice :
    (∀ (pb : Block) (n : String) (ct : ConnectionType), n ≠ "" →
      (pb.getInput n).isSome = true →
      parentConnectionOf (some pb) (some n) ct =
        .ok (some (pb.id, AttachPoint.input n))) ∧
    (∀ (pb : Block) (inputName : Option String) (ct : ConnectionType)
      (pid : String),
      parentConnectionOf (some pb) inputName ct =
        .ok (some (pid, AttachPoint.next)) →
      strFalsy inputName = true ∧ ct = ConnectionType.PREVIOUS_STATEMENT ∧
        pb.hasNext = true) := by
  constructor
  · intro pb n ct hn hsome
    obtain ⟨m, hm⟩ := Option.isSome_iff_exists.mp hsome
    simp [parentConnectionOf, strFalsy, hn, hm]
  · intro pb inputName ct pid h
    by_cases hf : strFalsy inputName = true
    · rw [parentConnectionOf, if_pos hf] at h
      by_cases hct : (ct == ConnectionType.PREVIOUS_STATEMENT) = true
      · rw [if_pos hct] at h
        cases hnx : pb.hasNext with
        | false => rw [hnx] at h; simp at h
        | true =>
            exact ⟨hf, by simpa using hct, rfl⟩
      · rw [if_neg hct] at h
        simp at h
    · rw [parentConnectionOf, if_neg hf] at h
      cases hgi : pb.getInput (inputName.getD "") with
      | none => rw [hgi] at h; simp at h
      | some m => rw [hgi] at h; simp at h

/-- Witness for C6: with both the named input and the parent's next
connection available, the named input is selected. -/
theorem blockMove_parentConnection_choice_witness :
    pParent.hasNext = true ∧
    parentConnectionOf (some pParent) (some "IN")
        ConnectionType.PREVIOUS_STATEMENT =
      .ok (some ("pp", AttachPoint.input "IN")) :=
  ⟨rfl, blockMove_parentConnection_choice.1 pParent "IN"
    ConnectionType.PREVIOUS_STATEMENT (by decide) (by decide)⟩

/-! ## C9: captured locations have exactly one of two shapes -/

/-- The specification's description of a captured location (§4.2): a block
is either connected — parent entity id, plus the input name exactly when it
sits in a named input — or free-floating at a coordinate, never both. -/
def locationForAttachment : Option Attachment → Coordinate → BlockLocation
  | some a, _ =>
      ⟨some a.parentId,
        (match a.point with | .input n => some n | .next => none), none⟩
  | none, c => ⟨none, none, some c⟩

/-- C9: the location captured by `currentLocation_` (used by the
constructor for the old half and by `recordNew` for the new half) is
exactly one of two mutually exclusive shapes read off the live connection
state: a parent id (with an input name exactly when the block sits in a
named input) and no coordinate, or a coordinate and no parent id or input
name — never both and never neither. -/
theorem blockMove_location_shapes :
    (∀ (ws : Workspace) (b : Block),
      (∀ a, b.attachment = some a → (ws.getBlockById a.parentId).isSome = true) →
      currentLocationOf ws b = locationForAttachment b.attachment b.coordinate ∧
      (((currentLocationOf ws b).parentId.isSome = true ∧
        (currentLocationOf ws b).coordinate = none) ∨
       ((currentLocationOf ws b).parentId = none ∧
        (currentLocationOf ws b).inputName = none ∧
        (currentLocationOf ws b).coordinate.isSome = true)) ∧
      ¬((currentLocationOf ws b).parentId.isSome = true ∧
        (currentLocationOf ws b).coordinate.isSome = true) ∧
      ((currentLocationOf ws b).inputName.isSome = true →
        (currentLocationOf ws b).parentId.isSome = true)) ∧
    (∀ (ws : Workspace) (b : Block) (dru : Bool) (g : String) (e : BlockMove),
      BlockMove.mk' ws b dru g = .ok e →
      ∃ b', ws.getBlockById b.id = some b' ∧
        e.oldParentId = (currentLocationOf ws b').parentId ∧
        e.oldInputName = (currentLocationOf ws b').inputName ∧
        e.oldCoordinate = (currentLocationOf ws b').coordinate) ∧
    (∀ (ws : Workspace) (e e' : BlockMove),
      BlockMove.recordNew e ws = .ok e' →
      ∃ bid b', e.blockId = some bid ∧ ws.getBlockById bid = some b' ∧
        e'.newParentId = (currentLocationOf ws b').parentId ∧
        e'.newInputName = (currentLocationOf ws b').inputName ∧
        e'.newCoordinate = (currentLocationOf ws b').coordinate) := by
  refine ⟨?_, ?_, ?_⟩
  · intro ws b hres
    have hL : currentLocationOf ws b = locationForAttachment b.attachment b.coordinate := by
      cases hatt : b.attachment with
      | none => simp [currentLocationOf, locationForAttachment, hatt]
      | some a =>
          obtain ⟨P, hP⟩ := Option.isSome_iff_exists.mp (hres a hatt)
          have hPid : P.id = a.parentId := getBlockById_id ws a.parentId P hP
          simp [currentLocationOf, locationForAttachment, hatt, hP,
            Block.getInputWithBlock, hPid]
    refine ⟨hL, ?_, ?_, ?_⟩
    · rw [hL]; cases b.attachment <;> simp [locationForAttachment]
    · rw [hL]; cases b.attachment <;> simp [locationForAttachment]
    · rw [hL]; cases b.attachment <;> simp [locationForAttachment]
  · intro ws b dru g e h
    unfold BlockMove.mk' at h
    cases hc : currentLocation ws (some b.id) with
    | error msg => rw [hc] at h; simp at h
    | ok L =>
        rw [hc] at h
        obtain ⟨bid, b', heq, hb', hLb⟩ := currentLocation_ok ws (some b.id) L hc
        injection heq with heq
        subst heq
        injection h with h
        subst h
        exact ⟨b', hb', by rw [hLb], by rw [hLb], by rw [hLb]⟩
  · intro ws e e' h
    unfold BlockMove.recordNew at h
    cases hc : currentLocation ws e.blockId with
    | error msg => rw [hc] at h; simp at h
    | ok L =>
        rw [hc] at h
        obtain ⟨bid, b', heq, hb', hLb⟩ := currentLocation_ok ws e.blockId L hc
        injection h with h
        subst h
        exact ⟨bid, b', heq, hb', by rw [hLb], by rw [hLb], by rw [hLb]⟩

/-- Witness for C9 at the shadow fixture: a free-floating block's captured
location is the coordinate shape. -/
theorem blockMove_location_shapes_witness :
    currentLocationOf wsShadow bShadow =
      locationForAttachment bShadow.attachment bShadow.coordinate :=
  ((blockMove_location_shapes).1 wsShadow bShadow
    (fun a ha => Option.noConfusion ha)).1

/-! ## C1: run(true) then run(false) -/

/-- Structural invariants of a live block in its workspace, modelled from
the spec's document model (§3, §6): nonempty entity ids, no block owning
both an output and a previous-statement connection, and a parent link that
is consistent — a nonempty parent id distinct from the block's own, a
carrying connection the block owns, and a resolvable parent block that owns
the named input or next connection the link points at (a next-connection
link is carried by the previous connection). -/
def Block.wellFormed (ws : Workspace) (b : Block) : Prop :=
  b.id ≠ "" ∧ ¬(b.hasOutput = true ∧ b.hasPrevious = true) ∧
  ∀ a, b.attachment = some a →
    a.parentId ≠ "" ∧ a.parentId ≠ b.id ∧
    (a.via = ConnSide.output → b.hasOutput = true) ∧
    (a.via = ConnSide.previous → b.hasPrevious = true) ∧
    ∃ P, ws.getBlockById a.parentId = some P ∧
      (∀ n, a.point = AttachPoint.input n → n ≠ "" ∧ n ∈ P.inputs) ∧
      (a.point = AttachPoint.next → a.via = ConnSide.previous ∧ P.hasNext = true)

/-- The fields of a block that `run` never changes (it only moves or
reconnects): everything except the attachment and the coordinate. -/
def Block.sameShape (b b' : Block) : Prop :=
  b'.id = b.id ∧ b'.hasOutput = b.hasOutput ∧ b'.hasPrevious = b.hasPrevious ∧
  b'.hasNext = b.hasNext ∧ b'.inputs = b.inputs ∧ b'.isShadow = b.isShadow

theorem sameShape_refl (b : Block) : Block.sameShape b b :=
  ⟨rfl, rfl, rfl, rfl, rfl, rfl⟩

theorem find?_map_update (l : List Block) (b' : Block)
    (h : (l.find? (fun x => x.id == b'.id)).isSome = true) :
    (l.map (fun x => if x.id == b'.id then b' else x)).find?
        (fun x => x.id == b'.id) = some b' := by
  induction l with
  | nil => simp [List.find?] at h
  | cons x xs ih =>
      simp only [List.find?_cons] at h
      by_cases hx : (x.id == b'.id) = true
      · simp only [List.map_cons, if_pos hx, List.find?_cons, beq_self_eq_true]
      · simp only [Bool.not_eq_true] at hx
        rw [hx] at h
        rw [List.map_cons, if_neg (by simp [hx]), List.find?_cons, hx]
        exact ih (by simpa using h)

theorem find?_map_update_other (l : List Block) (b' : Block) (pid : String)
    (hne : pid ≠ b'.id) :
    (l.map (fun x => if x.id == b'.id then b' else x)).find?
        (fun x => x.id == pid) = l.find? (fun x => x.id == pid) := by
  induction l with
  | nil => simp
  | cons x xs ih =>
      by_cases hx : (x.id == b'.id) = true
      · have hxid : x.id = b'.id := by simpa using hx
        have h1 : (b'.id == pid) = false := by
          simp only [Bool.eq_false_iff, ne_eq, beq_iff_eq]
          exact fun hh => hne hh.symm
        have h2 : (x.id == pid) = false := by rw [hxid]; exact h1
        rw [List.map_cons, if_pos hx, List.find?_cons, List.find?_cons, h1, h2]
        simpa using ih
      · rw [List.map_cons, if_neg hx, List.find?_cons, List.find?_cons]
        by_cases hp : (x.id == pid) = true
        · rw [hp]
        · simp only [Bool.not_eq_true] at hp
          rw [hp]
          simpa using ih

theorem getBlockById_setBlock_self (ws : Workspace) (b' : Block)
    (h : (ws.getBlockById b'.id).isSome = true) :
    (ws.setBlock b').getBlockById b'.id = some b' :=
  find?_map_update ws.blocks b' h

theorem getBlockById_setBlock_other (ws : Workspace) (b' : Block) (pid : String)
    (hne : pid ≠ b'.id) :
    (ws.setBlock b').getBlockById pid = ws.getBlockById pid :=
  find?_map_update_other ws.blocks b' pid hne

theorem find?_beq_of_mem (l : List String) (n : String) (h : n ∈ l) :
    l.find? (fun x => x == n) = some n := by
  induction l with
  | nil => cases h
  | cons x xs ih =>
      rw [List.find?_cons]
      by_cases hx : (x == n) = true
      · rw [hx]
        have hxn : x = n := by simpa using hx
        rw [hxn]
      · simp only [Bool.not_eq_true] at hx
        rw [hx]
        rcases List.mem_cons.mp h with h1 | h2
        · exact absurd (show (x == n) = true by simp [h1]) (by simp [hx])
        · simpa using ih h2

theorem getInput_of_mem (p : Block) (n : String) (h : n ∈ p.inputs) :
    p.getInput n = some n :=
  find?_beq_of_mem p.inputs n h

theorem coordinate_eta (c : Coordinate) : (⟨c.x, c.y⟩ : Coordinate) = c := by
  cases c; rfl

theorem unplugIf_attachment (b : Block) : b.unplugIf.attachment = none := by
  unfold Block.unplugIf Block.hasParent
  cases ha : b.attachment with
  | none => simp [ha, Block.unplug]
  | some a => simp [ha, Block.unplug]

theorem unplugIf_id (b : Block) : b.unplugIf.id = b.id := by
  unfold Block.unplugIf
  cases b.hasParent <;> simp [Block.unplug]

theorem unplugIf_hasOutput (b : Block) : b.unplugIf.hasOutput = b.hasOutput := by
  unfold Block.unplugIf
  cases b.hasParent <;> simp [Block.unplug]

theorem unplugIf_hasPrevious (b : Block) : b.unplugIf.hasPrevious = b.hasPrevious := by
  unfold Block.unplugIf
  cases b.hasParent <;> simp [Block.unplug]

/-- `run` with a falsy target parent id reduces to the unplug-and-apply
tail with no parent block. -/
theorem run_step_noparent (e : BlockMove) (ws : Workspace) (b : Block) (fwd : Bool)
    (hsf : strFalsy e.blockId = false)
    (hb : ws.getBlockById (e.blockId.getD "") = some b)
    (hpar : strFalsy (if fwd then e.newParentId else e.oldParentId) = true) :
    e.run fwd ws = runMove ws b none (if fwd then e.newInputName else e.oldInputName)
      (if fwd then e.newCoordinate else e.oldCoordinate) := by
  rw [BlockMove.run, if_neg (by rw [hsf]; exact Bool.false_ne_true), hb]
  simp only [hpar, if_pos]

/-- `run` with a truthy, resolvable target parent id reduces to the
unplug-and-apply tail with the resolved parent block. -/
theorem run_step_parent (e : BlockMove) (ws : Workspace) (b : Block) (fwd : Bool)
    (pid : String) (P : Block)
    (hsf : strFalsy e.blockId = false)
    (hb : ws.getBlockById (e.blockId.getD "") = some b)
    (hpid : (if fwd then e.newParentId else e.oldParentId) = some pid)
    (hpne : pid ≠ "")
    (hP : ws.getBlockById pid = some P) :
    e.run fwd ws = runMove ws b (some P)
      (if fwd then e.newInputName else e.oldInputName)
      (if fwd then e.newCoordinate else e.oldCoordinate) := by
  rw [BlockMove.run, if_neg (by rw [hsf]; exact Bool.false_ne_true), hb]
  have hsp : strFalsy (some pid) = false := by simp [strFalsy, hpne]
  simp only [hpid, hsp, Bool.false_eq_true, if_false, Option.getD_some, hP]

/-- The coordinate branch of the tail: an exact translation to the target
coordinate. -/
theorem runMove_coord (ws : Workspace) (block : Block) (pb : Option Block)
    (inN : Option String) (c : Coordinate) :
    runMove ws block pb inN (some c) =
      .ok (ws.setBlock (block.unplugIf.moveBy (c.x - block.unplugIf.coordinate.x)
        (c.y - block.unplugIf.coordinate.y)), []) := rfl

/-- The reconnection branch of the tail, when the block-side and
parent-side connections both resolve. -/
theorem runMove_reconnect (ws : Workspace) (block : Block) (pb : Option Block)
    (inN : Option String) (side : ConnSide) (pid : String) (pt : AttachPoint)
    (hbc : blockConnectionOf block.unplugIf = some side)
    (hpc : parentConnectionOf pb inN (connType side) = .ok (some (pid, pt))) :
    runMove ws block pb inN none =
      .ok (ws.setBlock (block.unplugIf.connectTo side pid pt), []) := by
  simp only [runMove]
  rw [hbc]
  dsimp only
  rw [hpc]

/-- Every successful `run` leaves the workspace unchanged or replaces the
moved block by a block of the same shape. -/
theorem run_ok_cases (e : BlockMove) (fwd : Bool) (ws ws₁ : Workspace)
    (w : List String) (b : Block)
    (hbid : e.blockId = some b.id) (hne : b.id ≠ "")
    (hb : ws.getBlockById b.id = some b)
    (h : e.run fwd ws = .ok (ws₁, w)) :
    ws₁ = ws ∨ ∃ blk, ws₁ = ws.setBlock blk ∧ Block.sameShape b blk := by
  have hsf : strFalsy e.blockId = false := by rw [hbid]; simp [strFalsy, hne]
  have hb' : ws.getBlockById (e.blockId.getD "") = some b := by
    rw [hbid]; exact hb
  have hshape : Block.sameShape b b.unplugIf :=
    ⟨unplugIf_id b, unplugIf_hasOutput b, unplugIf_hasPrevious b, by
      unfold Block.unplugIf; cases b.hasParent <;> simp [Block.unplug], by
      unfold Block.unplugIf; cases b.hasParent <;> simp [Block.unplug], by
      unfold Block.unplugIf; cases b.hasParent <;> simp [Block.unplug]⟩
  have hrm : ∀ pb inN co ws₁ w, runMove ws b pb inN co = .ok (ws₁, w) →
      ∃ blk, ws₁ = ws.setBlock blk ∧ Block.sameShape b blk := by
    intro pb inN co ws₁ w hmv
    cases co with
    | some c =>
        rw [runMove_coord] at hmv
        injection hmv with hmv
        injection hmv with hmv1 hmv2
        refine ⟨_, hmv1.symm, ?_⟩
        obtain ⟨h1, h2, h3, h4, h5, h6⟩ := hshape
        exact ⟨by simp [Block.moveBy, h1], by simp [Block.moveBy, h2],
          by simp [Block.moveBy, h3], by simp [Block.moveBy, h4],
          by simp [Block.moveBy, h5], by simp [Block.moveBy, h6]⟩
    | none =>
        simp only [runMove] at hmv
        cases hbc : blockConnectionOf b.unplugIf with
        | none => rw [hbc] at hmv; exact absurd hmv (by simp)
        | some side =>
            rw [hbc] at hmv
            dsimp only at hmv
            cases hpc : parentConnectionOf pb inN (connType side) with
            | error msg => rw [hpc] at hmv; exact absurd hmv (by simp)
            | ok oc =>
                rw [hpc] at hmv
                cases oc with
                | none =>
                    dsimp only at hmv
                    injection hmv with hmv
                    injection hmv with hmv1 hmv2
                    exact ⟨_, hmv1.symm, hshape⟩
                | some pr =>
                    obtain ⟨pid, pt⟩ := pr
                    dsimp only at hmv
                    injection hmv with hmv
                    injection hmv with hmv1 hmv2
                    refine ⟨_, hmv1.symm, ?_⟩
                    obtain ⟨h1, h2, h3, h4, h5, h6⟩ := hshape
                    exact ⟨by simp [Block.connectTo, h1], by simp [Block.connectTo, h2],
                      by simp [Block.connectTo, h3], by simp [Block.connectTo, h4],
                      by simp [Block.connectTo, h5], by simp [Block.connectTo, h6]⟩
  by_cases hpar : strFalsy (if fwd then e.newParentId else e.oldParentId) = true
  · rw [run_step_noparent e ws b fwd hsf hb' hpar] at h
    exact .inr (hrm _ _ _ _ _ h)
  · have hpar' : strFalsy (if fwd then e.newParentId else e.oldParentId) = false := by
      cases hxx : strFalsy (if fwd then e.newParentId else e.oldParentId) with
      | true => exact absurd hxx hpar
      | false => rfl
    cases hpidc : (if fwd then e.newParentId else e.oldParentId) with
    | none => rw [hpidc] at hpar'; simp [strFalsy] at hpar'
    | some pid =>
        have hpne : pid ≠ "" := by
          rw [hpidc] at hpar'; simpa [strFalsy] using hpar'
        cases hP : ws.getBlockById pid with
        | none =>
            rw [BlockMove.run, if_neg (by rw [hsf]; exact Bool.false_ne_true), hb'] at h
            have hsp : strFalsy (some pid) = false := by simp [strFalsy, hpne]
            simp only [hpidc, hsp, Bool.false_eq_true, if_false,
              Option.getD_some, hP] at h
            injection h with h
            injection h with h1 h2
            exact .inl h1.symm
        | some P =>
            rw [run_step_parent e ws b fwd pid P hsf hb' hpidc hpne hP] at h
            exact .inr (hrm _ _ _ _ _ h)

/-- The backward half of the round trip: from any workspace holding a
block of the moved block's shape, `run(false)` re-applies the old half
exactly and restores the captured location. -/
theorem runMove_restores (ws ws₁ : Workspace) (b b₁ : Block)
    (hwf : Block.wellFormed ws b)
    (hb₁ : ws₁.getBlockById b.id = some b₁)
    (hshape : Block.sameShape b b₁)
    (hpres : ∀ pid, pid ≠ b.id → ws₁.getBlockById pid = ws.getBlockById pid)
    (e : BlockMove)
    (hbid : e.blockId = some b.id)
    (hop : e.oldParentId = (currentLocationOf ws b).parentId)
    (hoi : e.oldInputName = (currentLocationOf ws b).inputName)
    (hoc : e.oldCoordinate = (currentLocationOf ws b).coordinate) :
    ∃ ws₂ warns₂ b₂, e.run false ws₁ = .ok (ws₂, warns₂) ∧
      ws₂.getBlockById b.id = some b₂ ∧
      currentLocationOf ws₂ b₂ = currentLocationOf ws b := by
  obtain ⟨hid, hnoboth, hatt⟩ := hwf
  obtain ⟨hsid, hsout, hsprev, hsnext, hsinp, hsshad⟩ := hshape
  have hsf : strFalsy e.blockId = false := by rw [hbid]; simp [strFalsy, hid]
  have hb₁' : ws₁.getBlockById (e.blockId.getD "") = some b₁ := by
    rw [hbid]; exact hb₁
  have hu1id : b₁.unplugIf.id = b.id := by rw [unplugIf_id, hsid]
  have hu1att : b₁.unplugIf.attachment = none := unplugIf_attachment b₁
  cases hattc : b.attachment with
  | none =>
      have hL : currentLocationOf ws b = ⟨none, none, some b.coordinate⟩ := by
        simp [currentLocationOf, hattc]
      rw [hL] at hop hoi hoc
      have hstep := run_step_noparent e ws₁ b₁ false hsf hb₁' (by
        simp only [Bool.false_eq_true, if_false, hop]; rfl)
      simp only [Bool.false_eq_true, if_false] at hstep
      rw [hoc, runMove_coord] at hstep
      set bfin := b₁.unplugIf.moveBy (b.coordinate.x - b₁.unplugIf.coordinate.x)
        (b.coordinate.y - b₁.unplugIf.coordinate.y) with hbfin
      have hfid : bfin.id = b.id := by rw [hbfin]; simp [Block.moveBy, hu1id]
      have hfatt : bfin.attachment = none := by
        rw [hbfin]; simp [Block.moveBy, hu1att]
      have hfco : bfin.coordinate = b.coordinate := by
        rw [hbfin]
        simp only [Block.moveBy]
        have hx : b₁.unplugIf.coordinate.x + (b.coordinate.x - b₁.unplugIf.coordinate.x) =
            b.coordinate.x := by ring
        have hy : b₁.unplugIf.coordinate.y + (b.coordinate.y - b₁.unplugIf.coordinate.y) =
            b.coordinate.y := by ring
        rw [hx, hy]
      refine ⟨ws₁.setBlock bfin, [], bfin, hstep, ?_, ?_⟩
      · rw [← hfid]
        exact getBlockById_setBlock_self ws₁ bfin (by rw [hfid, hb₁]; rfl)
      · rw [hL]
        simp [currentLocationOf, hfatt, hfco]
  | some a =>
      obtain ⟨hpne, hpneq, hviao, hviap, P, hP, hinp, hnextc⟩ := hatt a hattc
      have hPid : P.id = a.parentId := getBlockById_id ws a.parentId P hP
      have hP₁ : ws₁.getBlockById a.parentId = some P := by
        rw [hpres a.parentId hpneq]; exact hP
      have hgiwb : Block.getInputWithBlock P b =
          (match a.point with
           | AttachPoint.input n => some n
           | AttachPoint.next => none) := by
        simp [Block.getInputWithBlock, hattc, hPid]
      have hL : currentLocationOf ws b = ⟨some a.parentId,
          (match a.point with
           | AttachPoint.input n => some n
           | AttachPoint.next => none), none⟩ := by
        simp [currentLocationOf, hattc, hP, hgiwb]
      rw [hL] at hop hoi hoc
      have hstep := run_step_parent e ws₁ b₁ false a.parentId P hsf hb₁' (by
        simp only [Bool.false_eq_true, if_false, hop]) hpne hP₁
      simp only [Bool.false_eq_true, if_false] at hstep
      rw [hoc, hoi] at hstep
      -- the block-side connection for the unplugged block
      have hbcgen : blockConnectionOf b₁.unplugIf =
          (if b.hasOutput then some ConnSide.output
           else if b.hasPrevious then some ConnSide.previous else none) := by
        rw [blockConnectionOf_unplugged b₁.unplugIf hu1att, unplugIf_hasOutput,
          unplugIf_hasPrevious, hsout, hsprev]
      cases hpt : a.point with
      | input n =>
          obtain ⟨hn0, hnmem⟩ := hinp n hpt
          rw [hpt] at hoi hstep
          have hside : ∃ side, blockConnectionOf b₁.unplugIf = some side := by
            rw [hbcgen]
            cases ho : b.hasOutput with
            | true => exact ⟨ConnSide.output, by simp⟩
            | false =>
                have hvp : a.via = ConnSide.previous := by
                  cases hv : a.via with
                  | output => exact absurd (hviao hv) (by rw [ho]; exact Bool.false_ne_true)
                  | previous => rfl
                have hprev : b.hasPrevious = true := hviap hvp
                exact ⟨ConnSide.previous, by simp [hprev]⟩
          obtain ⟨side, hbc⟩ := hside
          have hpc : parentConnectionOf (some P) (some n) (connType side) =
              .ok (some (P.id, AttachPoint.input n)) := by
            simp [parentConnectionOf, strFalsy, hn0, Block.getInput,
              find?_beq_of_mem P.inputs n hnmem]
          rw [runMove_reconnect ws₁ b₁ (some P) (some n) side P.id
            (AttachPoint.input n) hbc hpc] at hstep
          set bfin := b₁.unplugIf.connectTo side P.id (AttachPoint.input n) with hbfin
          have hfid : bfin.id = b.id := by rw [hbfin]; simp [Block.connectTo, hu1id]
          have hfatt : bfin.attachment = some ⟨P.id, AttachPoint.input n, side⟩ := by
            rw [hbfin]; simp [Block.connectTo]
          refine ⟨ws₁.setBlock bfin, [], bfin, hstep, ?_, ?_⟩
          · rw [← hfid]
            exact getBlockById_setBlock_self ws₁ bfin (by rw [hfid, hb₁]; rfl)
          · have hPfin : (ws₁.setBlock bfin).getBlockById a.parentId = some P := by
              rw [getBlockById_setBlock_other ws₁ bfin a.parentId (by
                rw [hfid]; exact hpneq)]
              exact hP₁
            rw [hL]
            simp [currentLocationOf, hfatt, hPid, hPfin, Block.getInputWithBlock, hpt]
      | next =>
          obtain ⟨hvp, hPnext⟩ := hnextc hpt
          rw [hpt] at hoi hstep
          have hprev : b.hasPrevious = true := hviap hvp
          have hout : b.hasOutput = false := by
            cases ho : b.hasOutput with
            | true => exact absurd ⟨ho, hprev⟩ hnoboth
            | false => rfl
          have hbc : blockConnectionOf b₁.unplugIf = some ConnSide.previous := by
            rw [hbcgen, hout]
            simp [hprev]
          have hpc : parentConnectionOf (some P) none
              (connType ConnSide.previous) = .ok (some (P.id, AttachPoint.next)) := by
            simp [parentConnectionOf, strFalsy, connType, hPnext]
          rw [runMove_reconnect ws₁ b₁ (some P) none ConnSide.previous P.id
            AttachPoint.next hbc hpc] at hstep
          set bfin := b₁.unplugIf.connectTo ConnSide.previous P.id AttachPoint.next
            with hbfin
          have hfid : bfin.id = b.id := by rw [hbfin]; simp [Block.connectTo, hu1id]
          have hfatt : bfin.attachment =
              some ⟨P.id, AttachPoint.next, ConnSide.previous⟩ := by
            rw [hbfin]; simp [Block.connectTo]
          refine ⟨ws₁.setBlock bfin, [], bfin, hstep, ?_, ?_⟩
          · rw [← hfid]
            exact getBlockById_setBlock_self ws₁ bfin (by rw [hfid, hb₁]; rfl)
          · have hPfin : (ws₁.setBlock bfin).getBlockById a.parentId = some P := by
              rw [getBlockById_setBlock_other ws₁ bfin a.parentId (by
                rw [hfid]; exact hpneq)]
              exact hP₁
            rw [hL]
            simp [currentLocationOf, hfatt, hPid, hPfin, Block.getInputWithBlock, hpt]

/-- C1 (amended): for a well-formed block whose captured old half matches
its current location — as holds for every event produced by the
constructor — a completed `run(true)` followed by `run(false)` restores the
block's location state (parent connection, input, and coordinates) exactly. -/
theorem blockMove_run_roundtrip (e : BlockMove) (ws ws₁ : Workspace) (b : Block)
    (warns : List String)
    (hbid : e.blockId = some b.id)
    (hb : ws.getBlockById b.id = some b)
    (hwf : Block.wellFormed ws b)
    (hop : e.oldParentId = (currentLocationOf ws b).parentId)
    (hoi : e.oldInputName = (currentLocationOf ws b).inputName)
    (hoc : e.oldCoordinate = (currentLocationOf ws b).coordinate)
    (hrun : e.run true ws = .ok (ws₁, warns)) :
    ∃ ws₂ warns₂ b₂, e.run false ws₁ = .ok (ws₂, warns₂) ∧
      ws₂.getBlockById b.id = some b₂ ∧
      currentLocationOf ws₂ b₂ = currentLocationOf ws b := by
  rcases run_ok_cases e true ws ws₁ warns b hbid hwf.1 hb hrun with h | ⟨blk, hws₁, hshape⟩
  · rw [h]
    exact runMove_restores ws ws b b hwf hb (sameShape_refl b) (fun _ _ => rfl)
      e hbid hop hoi hoc
  · have hblkid : blk.id = b.id := hshape.1
    have hb₁ : ws₁.getBlockById b.id = some blk := by
      rw [hws₁, ← hblkid]
      exact getBlockById_setBlock_self ws blk (by rw [hblkid, hb]; rfl)
    have hpres : ∀ pid, pid ≠ b.id → ws₁.getBlockById pid = ws.getBlockById pid := by
      intro pid hpne
      rw [hws₁]
      exact getBlockById_setBlock_other ws blk pid (by rw [hblkid]; exact hpne)
    exact runMove_restores ws ws₁ b blk hwf hb₁ hshape hpres e hbid hop hoi hoc

/-- The C1 counterexample block: free-floating at the origin. -/
def bCex : Block :=
  { id := "cb", hasOutput := false, hasPrevious := false, hasNext := false,
    inputs := [], isShadow := false, attachment := none, coordinate := ⟨0, 0⟩ }

def wsCex : Workspace := ⟨[bCex]⟩

/-- A move event over `bCex` whose old half (5,5) does not describe the
block's current location (0,0); every id it references resolves. -/
def eCex : BlockMove :=
  { blockId := some "cb", group := "", recordUndo := true,
    oldParentId := none, oldInputName := none, oldCoordinate := some ⟨5, 5⟩,
    newParentId := none, newInputName := none, newCoordinate := some ⟨7, 7⟩ }

def wsCexA : Workspace := ⟨[{ bCex with coordinate := ⟨7, 7⟩ }]⟩

def wsCexB : Workspace := ⟨[{ bCex with coordinate := ⟨5, 5⟩ }]⟩

/-- A well-formed move of `bCex` whose old half equals the block's current
location, used to exercise the round-trip theorem. -/
def eRt : BlockMove :=
  { blockId := some "cb", group := "", recordUndo := true,
    oldParentId := none, oldInputName := none, oldCoordinate := some ⟨0, 0⟩,
    newParentId := none, newInputName := none, newCoordinate := some ⟨7, 7⟩ }

/-- C1 counterexample: the moved block and every referenced entity exist,
both runs complete without warnings, yet run(true) followed by run(false)
moves the block to the event's old coordinate (5,5) — not back to the
location (0,0) it occupied before run(true), because the event's old half
need not describe the block's current location. -/
theorem blockMove_run_roundtrip_counterexample :
    eCex.run true wsCex = .ok (wsCexA, []) ∧
    eCex.run false wsCexA = .ok (wsCexB, []) ∧
    (wsCexB.getBlockById "cb").map (currentLocationOf wsCexB) ≠
      (wsCex.getBlockById "cb").map (currentLocationOf wsCex) := by
  refine ⟨by decide, by decide, by decide⟩

/-- Witness for C1's amended theorem at a concrete matching event. -/
theorem blockMove_run_roundtrip_witness :
    ∃ ws₂ warns₂ b₂, eRt.run false wsCexA = .ok (ws₂, warns₂) ∧
      ws₂.getBlockById bCex.id = some b₂ ∧
      currentLocationOf ws₂ b₂ = currentLocationOf wsCex bCex :=
  blockMove_run_roundtrip eRt wsCex wsCexA bCex [] rfl (by decide)
    ⟨by decide, by decide, fun a ha => Option.noConfusion ha⟩
    (by decide) (by decide) (by decide) (by decide)

/-! ## Decimal round-trip lemmas for the coordinate encoding -/

theorem digitVal?_digitChar (d : ℕ) (hd : d < 10) :
    digitVal? (digitChar d) = some d := by
  interval_cases d <;> decide

theorem digitChar_ne (d : ℕ) (hd : d < 10) :
    digitChar d ≠ ',' ∧ digitChar d ≠ ' ' ∧ digitChar d ≠ '-' := by
  interval_cases d <;> exact ⟨by decide, by decide, by decide⟩

theorem natToString_data (n : ℕ) :
    (natToString n).data = if n = 0 then ['0'] else natDigitChars n := rfl

theorem natToString_chars (n : ℕ) :
    ∀ c ∈ (natToString n).data, ∃ d, d < 10 ∧ c = digitChar d := by
  intro c hc
  rw [natToString_data] at hc
  by_cases h0 : n = 0
  · rw [if_pos h0] at hc
    simp only [List.mem_singleton] at hc
    exact ⟨0, by norm_num, by rw [hc]; decide⟩
  · rw [if_neg h0] at hc
    unfold natDigitChars at hc
    rw [List.mem_reverse] at hc
    obtain ⟨d, hdmem, hdc⟩ := List.mem_map.mp hc
    exact ⟨d, Nat.digits_lt_base (by norm_num) hdmem, hdc.symm⟩

theorem natToString_data_ne_nil (n : ℕ) : (natToString n).data ≠ [] := by
  rw [natToString_data]
  by_cases h0 : n = 0
  · rw [if_pos h0]; simp
  · rw [if_neg h0]
    unfold natDigitChars
    simp [Nat.digits_ne_nil_iff_ne_zero.mpr h0]

theorem parseDigitsAux_digits (R : List ℕ) :
    ∀ acc, (∀ d ∈ R, d < 10) →
      parseDigitsAux acc (R.map digitChar) =
        some (R.foldl (fun a d => a * 10 + d) acc) := by
  induction R with
  | nil => intro acc h; rfl
  | cons r rs ih =>
      intro acc h
      have hr : r < 10 := h r (by simp)
      simp only [List.map_cons, parseDigitsAux, digitVal?_digitChar r hr,
        List.foldl_cons]
      exact ih (acc * 10 + r) (fun d hd => h d (by simp [hd]))

theorem foldl_reverse_ofDigits (ds : List ℕ) :
    ∀ acc, ds.reverse.foldl (fun a d => a * 10 + d) acc =
      acc * 10 ^ ds.length + Nat.ofDigits 10 ds := by
  induction ds with
  | nil => intro acc; simp [Nat.ofDigits_nil]
  | cons d tl ih =>
      intro acc
      rw [List.reverse_cons, List.foldl_append, ih acc]
      simp only [List.foldl_cons, List.foldl_nil, Nat.ofDigits_cons,
        List.length_cons]
      ring

theorem parseDigits_natToString (n : ℕ) :
    parseDigits (natToString n).data = some n := by
  rw [natToString_data]
  by_cases h0 : n = 0
  · rw [if_pos h0, h0]; decide
  · rw [if_neg h0]
    unfold parseDigits
    have hne : natDigitChars n ≠ [] := by
      unfold natDigitChars
      simp [Nat.digits_ne_nil_iff_ne_zero.mpr h0]
    rw [if_neg (by
      cases hl : natDigitChars n with
      | nil => exact absurd hl hne
      | cons a l => simp [hl])]
    have hrev : natDigitChars n = (Nat.digits 10 n).reverse.map digitChar := by
      unfold natDigitChars
      simp
    rw [hrev, parseDigitsAux_digits _ 0 (fun d hd =>
      Nat.digits_lt_base (by norm_num) (List.mem_reverse.mp hd))]
    rw [foldl_reverse_ofDigits]
    simp [Nat.ofDigits_digits]

theorem dropWhile_no_space (L : List Char) (h : ∀ c ∈ L, c ≠ ' ') :
    L.dropWhile (fun c => c == ' ') = L := by
  cases L with
  | nil => rfl
  | cons c cs =>
      rw [List.dropWhile_cons, if_neg (by
        simp only [beq_iff_eq]
        exact h c (List.mem_cons_self c cs))]

theorem trimSpaces_no_space (L : List Char) (h : ∀ c ∈ L, c ≠ ' ') :
    trimSpaces L = L := by
  unfold trimSpaces
  rw [dropWhile_no_space L h,
    dropWhile_no_space L.reverse (fun c hc => h c (List.mem_reverse.mp hc)),
    List.reverse_reverse]

theorem trimSpaces_cons_space (L : List Char) :
    trimSpaces (' ' :: L) = trimSpaces L := by
  unfold trimSpaces
  rw [List.dropWhile_cons, if_pos (by decide)]

theorem jsNumber_trim_congr (L M : List Char) (h : trimSpaces L = trimSpaces M) :
    jsNumber L = jsNumber M := by
  unfold jsNumber
  rw [h]

theorem intToString_chars (i : ℤ) :
    ∀ c ∈ (intToString i).data, c = '-' ∨ ∃ d, d < 10 ∧ c = digitChar d := by
  intro c hc
  unfold intToString at hc
  by_cases h : i < 0
  · rw [if_pos h, String.data_append] at hc
    rcases List.mem_append.mp hc with h1 | h2
    · left
      simpa using h1
    · right
      exact natToString_chars _ c h2
  · rw [if_neg h] at hc
    right
    exact natToString_chars _ c hc

theorem intToString_no_comma (i : ℤ) :
    ∀ c ∈ (intToString i).data, (c == ',') = false := by
  intro c hc
  rcases intToString_chars i c hc with h | ⟨d, hd, hc'⟩
  · rw [h]; decide
  · rw [hc']
    simp only [beq_eq_false_iff_ne]
    exact (digitChar_ne d hd).1

theorem intToString_no_space (i : ℤ) :
    ∀ c ∈ (intToString i).data, c ≠ ' ' := by
  intro c hc
  rcases intToString_chars i c hc with h | ⟨d, hd, hc'⟩
  · rw [h]; decide
  · rw [hc']
    exact (digitChar_ne d hd).2.1

theorem jsNumber_intToString (i : ℤ) :
    jsNumber (intToString i).data = some (i : ℚ) := by
  unfold jsNumber
  rw [trimSpaces_no_space _ (intToString_no_space i)]
  by_cases h : i < 0
  · have hdata : (intToString i).data = '-' :: (natToString i.natAbs).data := by
      unfold intToString
      rw [if_pos h, String.data_append]
      rfl
    rw [hdata]
    rw [if_neg (by simp)]
    rw [if_pos (by simp)]
    simp only [List.tail_cons]
    rw [parseDigits_natToString]
    simp only [Option.map_some']
    congr 1
    rw [Int.cast_natAbs, abs_of_neg h]
    push_cast
    ring
  · have hdata : (intToString i).data = (natToString i.natAbs).data := by
      unfold intToString
      rw [if_neg h]
    rw [hdata]
    obtain ⟨c, cs, hcc⟩ := List.exists_cons_of_ne_nil (natToString_data_ne_nil i.natAbs)
    have hcd : ∃ d, d < 10 ∧ c = digitChar d :=
      natToString_chars _ c (by rw [hcc]; exact List.mem_cons_self c cs)
    rw [if_neg (by rw [hcc]; simp)]
    rw [if_neg (by
      rw [hcc]
      obtain ⟨d, hd, hcd'⟩ := hcd
      simp only [List.head?_cons, Option.some.injEq]
      simp only [beq_iff_eq, Option.some.injEq]
      rw [hcd']
      exact fun hh => (digitChar_ne d hd).2.2 hh)]
    rw [parseDigits_natToString]
    simp only [Option.map_some']
    congr 1
    rw [Int.cast_natAbs, abs_of_nonneg (not_lt.mp h)]

theorem jsNumber_space_intToString (i : ℤ) :
    jsNumber (' ' :: (intToString i).data) = some (i : ℚ) := by
  rw [jsNumber_trim_congr (' ' :: (intToString i).data) (intToString i).data
    (trimSpaces_cons_space _)]
  exact jsNumber_intToString i

theorem splitOnChar_append_comma (A B : List Char)
    (hA : ∀ c ∈ A, (c == ',') = false) :
    splitOnChar ',' (A ++ ',' :: B) = A :: splitOnChar ',' B := by
  induction A with
  | nil =>
      rw [List.nil_append, splitOnChar_cons, if_pos (by decide)]
  | cons c cs ih =>
      have hc : (c == ',') = false := hA c (List.mem_cons_self c cs)
      rw [List.cons_append, splitOnChar_cons, if_neg (by simp [hc]),
        ih (fun x hx => hA x (List.mem_cons_of_mem c hx))]

theorem splitOnChar_no_comma (B : List Char)
    (hB : ∀ c ∈ B, (c == ',') = false) :
    splitOnChar ',' B = [B] := by
  induction B with
  | nil => rfl
  | cons c cs ih =>
      have hc : (c == ',') = false := hB c (List.mem_cons_self c cs)
      rw [splitOnChar_cons, if_neg (by simp [hc]),
        ih (fun x hx => hB x (List.mem_cons_of_mem c hx))]

theorem encodeCoordinate_data (c : Coordinate) :
    (encodeCoordinate c).data =
      (intToString (jsRound c.x)).data ++
        ',' :: ' ' :: (intToString (jsRound c.y)).data := by
  unfold encodeCoordinate
  rw [String.data_append, String.data_append, List.append_assoc]
  rfl

theorem decodeCoordinate_encode (c : Coordinate) :
    decodeCoordinate (encodeCoordinate c) =
      some ⟨(jsRound c.x : ℚ), (jsRound c.y : ℚ)⟩ := by
  unfold decodeCoordinate
  rw [encodeCoordinate_data,
    splitOnChar_append_comma _ _ (intToString_no_comma _),
    splitOnChar_no_comma (' ' :: (intToString (jsRound c.y)).data) (by
      intro x hx
      rcases List.mem_cons.mp hx with h1 | h2
      · rw [h1]; decide
      · exact intToString_no_comma _ x h2)]
  simp [jsNumber_intToString, jsNumber_space_intToString]

theorem encodeCoordinate_ne_empty (c : Coordinate) :
    (encodeCoordinate c == "") = false := by
  rw [beq_eq_false_iff_ne]
  intro h
  have hd := congrArg String.data h
  rw [encodeCoordinate_data] at hd
  simp at hd

theorem decodeCoordinateField_encode (c : Coordinate) :
    decodeCoordinateField (some (encodeCoordinate c)) =
      some ⟨(jsRound c.x : ℚ), (jsRound c.y : ℚ)⟩ := by
  simp only [decodeCoordinateField]
  rw [if_neg (by rw [encodeCoordinate_ne_empty]; exact Bool.false_ne_true)]
  exact decodeCoordinate_encode c

/-! ## C7: the textual coordinate encoding -/

/-- C7: a defined coordinate is serialized by `toJson` as exactly the
string round(x), comma, space, round(y) — each component the decimal
numeral of its JS `Math.round` — and the static `fromJson` parses that
string back into the coordinate whose components are those rounded
values. -/
theorem blockMove_coordinate_encoding (e : BlockMove) (c : Coordinate) :
    (e.oldCoordinate = some c →
      e.toJson.oldCoordinate =
        some (intToString (jsRound c.x) ++ ", " ++ intToString (jsRound c.y)) ∧
      ∀ dru g, (BlockMove.fromJson e.toJson dru g).oldCoordinate =
        some ⟨(jsRound c.x : ℚ), (jsRound c.y : ℚ)⟩) ∧
    (e.newCoordinate = some c →
      e.toJson.newCoordinate =
        some (intToString (jsRound c.x) ++ ", " ++ intToString (jsRound c.y)) ∧
      ∀ dru g, (BlockMove.fromJson e.toJson dru g).newCoordinate =
        some ⟨(jsRound c.x : ℚ), (jsRound c.y : ℚ)⟩) := by
  constructor
  · intro h
    constructor
    · simp [BlockMove.toJson, BlockMove.baseToJson, h, encodeCoordinate]
    · intro dru g
      show decodeCoordinateField (e.toJson.oldCoordinate) = _
      have hoc : e.toJson.oldCoordinate = some (encodeCoordinate c) := by
        simp [BlockMove.toJson, BlockMove.baseToJson, h]
      rw [hoc, decodeCoordinateField_encode]
  · intro h
    constructor
    · simp [BlockMove.toJson, BlockMove.baseToJson, h, encodeCoordinate]
    · intro dru g
      show decodeCoordinateField (e.toJson.newCoordinate) = _
      have hoc : e.toJson.newCoordinate = some (encodeCoordinate c) := by
        simp [BlockMove.toJson, BlockMove.baseToJson, h]
      rw [hoc, decodeCoordinateField_encode]

/-- A move event with a fractional old coordinate. -/
def eC7 : BlockMove :=
  { blockId := some "cb", group := "", recordUndo := true,
    oldParentId := none, oldInputName := none, oldCoordinate := some ⟨21 / 2, 0⟩,
    newParentId := none, newInputName := none, newCoordinate := none }

/-- Witness for C7 at a concrete fractional coordinate. -/
theorem blockMove_coordinate_encoding_witness :
    eC7.toJson.oldCoordinate =
      some (intToString (jsRound (21 / 2 : ℚ)) ++ ", " ++ intToString (jsRound (0 : ℚ))) ∧
    (BlockMove.fromJson eC7.toJson true "").oldCoordinate =
      some ⟨(jsRound (21 / 2 : ℚ) : ℚ), (jsRound (0 : ℚ) : ℚ)⟩ :=
  ⟨((blockMove_coordinate_encoding eC7 ⟨21 / 2, 0⟩).1 rfl).1,
    ((blockMove_coordinate_encoding eC7 ⟨21 / 2, 0⟩).1 rfl).2 true ""⟩

/-! ## C2: serialization round trip -/

/-- `run` reads only the block id and the six location fields; two events
agreeing on them replay identically. -/
theorem run_eq_of_fields (e e' : BlockMove)
    (h1 : e'.blockId = e.blockId)
    (h2 : e'.oldParentId = e.oldParentId)
    (h3 : e'.oldInputName = e.oldInputName)
    (h4 : e'.oldCoordinate = e.oldCoordinate)
    (h5 : e'.newParentId = e.newParentId)
    (h6 : e'.newInputName = e.newInputName)
    (h7 : e'.newCoordinate = e.newCoordinate) :
    ∀ (fwd : Bool) (ws : Workspace), e'.run fwd ws = e.run fwd ws := by
  intro fwd ws
  obtain ⟨bid, g, ru, op, oi, oc, np, ni, nc⟩ := e
  obtain ⟨bid', g', ru', op', oi', oc', np', ni', nc'⟩ := e'
  have g1 : bid' = bid := h1
  have g2 : op' = op := h2
  have g3 : oi' = oi := h3
  have g4 : oc' = oc := h4
  have g5 : np' = np := h5
  have g6 : ni' = ni := h6
  have g7 : nc' = nc := h7
  subst g1; subst g2; subst g3; subst g4; subst g5; subst g6; subst g7
  rfl

/-- The rounding of an integral rational is itself. -/
theorem jsRound_den_one (q : ℚ) (h : q.den = 1) : (jsRound q : ℚ) = q := by
  have hq : (q.num : ℚ) = q := (Rat.den_eq_one_iff q).mp h
  have h0 : ⌊(1 / 2 : ℚ)⌋ = 0 := by decide
  unfold jsRound
  rw [← hq, Int.floor_int_add, h0, add_zero]

/-- The serialized coordinate decodes back exactly when it was integral. -/
theorem fromJson_toJson_coordinate (oc : Option Coordinate)
    (h : ∀ c, oc = some c → c.x.den = 1 ∧ c.y.den = 1) :
    decodeCoordinateField (oc.map encodeCoordinate) = oc := by
  cases oc with
  | none => rfl
  | some c =>
      obtain ⟨hx, hy⟩ := h c rfl
      rw [Option.map_some', decodeCoordinateField_encode]
      rw [jsRound_den_one c.x hx, jsRound_den_one c.y hy]

/-- C2 (amended): for events whose coordinates are integral, the
serialization round trip `fromJson(toJson(e))` replays identically to `e`
in both directions on every workspace.  (For fractional coordinates the
encoding rounds, so replay lands on the rounded position — see the
counterexample.) -/
theorem blockMove_serialization_replay (e : BlockMove) (dru : Bool) (g : String)
    (hold : ∀ c, e.oldCoordinate = some c → c.x.den = 1 ∧ c.y.den = 1)
    (hnew : ∀ c, e.newCoordinate = some c → c.x.den = 1 ∧ c.y.den = 1) :
    ∀ (fwd : Bool) (ws : Workspace),
      (BlockMove.fromJson e.toJson dru g).run fwd ws = e.run fwd ws := by
  apply run_eq_of_fields
  · rfl
  · rfl
  · rfl
  · exact fromJson_toJson_coordinate e.oldCoordinate hold
  · rfl
  · rfl
  · exact fromJson_toJson_coordinate e.newCoordinate hnew

/-- Witness for C2's amended theorem at an integral-coordinate event. -/
theorem blockMove_serialization_replay_witness :
    (BlockMove.fromJson eRt.toJson true "").run true wsCex = eRt.run true wsCex :=
  blockMove_serialization_replay eRt true ""
    (fun c hc => by
      have hcc : (⟨0, 0⟩ : Coordinate) = c := by injection hc
      rw [← hcc]
      exact ⟨by decide, by decide⟩)
    (fun c hc => by
      have hcc : (⟨7, 7⟩ : Coordinate) = c := by injection hc
      rw [← hcc]
      exact ⟨by decide, by decide⟩)
    true wsCex

/-- A move event whose new coordinate is fractional: (10.5, 0). -/
def eFrac : BlockMove :=
  { blockId := some "cb", group := "", recordUndo := true,
    oldParentId := none, oldInputName := none, oldCoordinate := none,
    newParentId := none, newInputName := none, newCoordinate := some ⟨21 / 2, 0⟩ }

/-- C2 counterexample: serializing rounds the fractional coordinate
(10.5, 0) to "11, 0", so the reconstructed event replays the block to
(11, 0) while the original replays it to (10.5, 0) — the round trip does
not have identical observable effect. -/
theorem blockMove_serialization_counterexample :
    eFrac.run true wsCex = .ok (⟨[{ bCex with coordinate := ⟨21 / 2, 0⟩ }]⟩, []) ∧
    (BlockMove.fromJson eFrac.toJson true "").run true wsCex =
      .ok (⟨[{ bCex with coordinate := ⟨11, 0⟩ }]⟩, []) ∧
    (BlockMove.fromJson eFrac.toJson true "").run true wsCex ≠
      eFrac.run true wsCex := by
  have hdc : decodeCoordinateField (some (encodeCoordinate ⟨21 / 2, 0⟩)) =
      some ⟨11, 0⟩ := by
    rw [decodeCoordinateField_encode]
    have hx : jsRound (21 / 2 : ℚ) = 11 := by decide
    have hy : jsRound (0 : ℚ) = 0 := by decide
    rw [hx, hy]
    norm_num
  have hfj : BlockMove.fromJson eFrac.toJson true "" =
      { eFrac with newCoordinate := some ⟨11, 0⟩ } := by
    show BlockMove.fromJson eFrac.toJson true "" = _
    simp only [BlockMove.fromJson, BlockMove.toJson, BlockMove.baseToJson,
      BlockMove.blank]
    rw [show eFrac.newCoordinate.map encodeCoordinate =
      some (encodeCoordinate ⟨21 / 2, 0⟩) from rfl, hdc]
    rfl
  refine ⟨by decide, ?_, ?_⟩
  · rw [hfj]
    decide
  · rw [hfj]
    decide

end BlocklyEvents
